import Mathlib

/-!
Verification of the argononed-rs daemon (`src/main.rs`), a fan/power-button
controller for the Argon One Raspberry Pi case.

The Rust source is shallowly embedded below:
* machine integers become `Nat` (u8, u64) or `Int` (i16), with `% 256`
  where u8 overflow matters (the `AtomicU8` pulse counter);
* the sampled temperature (an `f32` produced by parsing decimal text and
  compared only against exact small-integer thresholds) becomes `ℚ`;
* the two infinite control loops become recursive functions over an explicit
  finite list of per-iteration inputs (pending-signal flag, temperature
  sample or counter reading), producing the list of observable effects
  (I2C register writes, spawned OS power actions);
* fallible operations become `Except` / `Option`.
-/

/-- A power action spawned by `shutdown_check` via `Command::new(...).spawn()`. -/
inductive PowerAction where
  | reboot
  | poweroff
  deriving DecidableEq, Repr

/-- `enum ConfigError { NoConstantSpeed, EmptyStepConfig }` from the source. -/
inductive ConfigError where
  | NoConstantSpeed
  | EmptyStepConfig
  deriving DecidableEq, Repr

/-- `struct TempSpeedPair { temperature: i16, fan_speed: u8 }`:
`temperature` is embedded as `Int`, `fan_speed` as `Nat`. -/
structure TempSpeedPair where
  temperature : Int
  fan_speed : Nat
  deriving DecidableEq, Repr

/-- `struct FanConfig` from the source: `dynamic: bool`,
`const_fan_speed: Option<u8>`, `step: Option<Vec<TempSpeedPair>>`,
`delay_on_change: Option<u64>`. -/
structure FanConfig where
  dynamic : Bool
  const_fan_speed : Option Nat
  step : Option (List TempSpeedPair)
  delay_on_change : Option Nat
  deriving DecidableEq, Repr

/-- A single `smbus_write_byte(register, value)` call on the I2C bus. -/
structure I2CWrite where
  register : Nat
  value : Nat
  deriving DecidableEq, Repr

/-- The comparator `|a, b| a.temperature.cmp(&b.temperature)` used by
`step.sort_by` in `load_config`, as a binary relation. -/
def stepLE (a b : TempSpeedPair) : Prop :=
  a.temperature ≤ b.temperature

instance : DecidableRel stepLE := fun a b =>
  inferInstanceAs (Decidable (a.temperature ≤ b.temperature))

instance : IsTotal TempSpeedPair stepLE :=
  ⟨fun a b => Int.le_total a.temperature b.temperature⟩

instance : IsTrans TempSpeedPair stepLE :=
  ⟨fun _ _ _ hab hbc => le_trans hab hbc⟩

/-- `load_config` (lines 78-85): after deserializing, sort the step table
(if present) ascending by `temperature`.  Rust's `sort_by` is a stable sort,
as is `List.insertionSort`, so on a total preorder they agree. -/
def load_config (c : FanConfig) : FanConfig :=
  { c with step := c.step.map (List.insertionSort stepLE) }

/-- The target-speed scan inside `fan_check` (lines 135-141):
`target_fan_speed` starts at 0 and is set to the `fan_speed` of the first
entry whose threshold (cast to f32) strictly exceeds the sampled
temperature, then the loop breaks. -/
def fan_target (table : List TempSpeedPair) (t : ℚ) : Nat :=
  match table with
  | [] => 0
  | p :: rest => if t < (p.temperature : ℚ) then p.fan_speed else fan_target rest t

/-- Restatement of the spec's words for the target level: the fan level of
the first entry whose threshold strictly exceeds the sample, or 0 if no
entry's threshold exceeds the sample.  Used to compare with `fan_target`,
which is embedded from the source loop. -/
def fan_target_spec (table : List TempSpeedPair) (t : ℚ) : Nat :=
  (((table.find? fun p => decide (t < (p.temperature : ℚ))).map
    fun p => p.fan_speed).getD 0)

/-- The `match PULSE_TIME.load(...)` classification in `shutdown_check`
(lines 69-73): 2 or 3 spawns `systemctl reboot`, 4 or 5 spawns
`systemctl poweroff`, everything else does nothing. -/
def shutdown_action (c : Nat) : Option PowerAction :=
  match c with
  | 2 => some .reboot
  | 3 => some .reboot
  | 4 => some .poweroff
  | 5 => some .poweroff
  | _ => none

/-- One `fetch_add(1, ...)` on the `AtomicU8` counter `PULSE_TIME`: u8
arithmetic wraps modulo 256. -/
def u8_inc (c : Nat) : Nat := (c + 1) % 256

/-- The value of `PULSE_TIME` after `n` rising edges have fired the
interrupt callback, starting from `AtomicU8::new(0)`. -/
def pulse_count (n : Nat) : Nat := u8_inc^[n] 0

/-- Per-iteration input of the `shutdown_check` polling loop: whether a
termination signal is pending at the top of the iteration, and the counter
value that `PULSE_TIME.load` would return on this iteration. -/
structure ShutdownPoll where
  signalPending : Bool
  counter : Nat
  deriving DecidableEq, Repr

/-- The `'outer: loop` of `shutdown_check` (lines 60-74): each iteration
first drains pending signals (any SIGTERM/SIGINT/SIGQUIT breaks the loop),
then classifies the current counter value and spawns the corresponding
action.  Returns the list of spawned power actions. -/
def shutdown_loop : List ShutdownPoll → List PowerAction
  | [] => []
  | poll :: rest =>
    if poll.signalPending then []
    else
      match shutdown_action poll.counter with
      | some a => a :: shutdown_loop rest
      | none => shutdown_loop rest

/-- Per-iteration input of the `fan_check` control loop: either a pending
termination signal at the top of the iteration, or the temperature sample
`read_temperature` returns on this iteration. -/
inductive FanPoll where
  | signal
  | temp (t : ℚ)
  deriving DecidableEq, Repr

/-- The `'outer: loop` of `fan_check` (lines 124-148), recording the I2C
writes it performs: on a pending signal it writes byte 0 to register 0 and
breaks; otherwise it computes the target speed, (after the hysteresis sleep,
which does not change what is written) sets the current speed to the target
and writes it to register 0. -/
def fan_loop (table : List TempSpeedPair) (cur : Nat) : List FanPoll → List I2CWrite
  | [] => []
  | .signal :: _ => [⟨0, 0⟩]
  | .temp t :: rest =>
    let target := fan_target table t
    ⟨0, target⟩ :: fan_loop table target rest

/-- The applied fan level over one iteration of the `fan_check` loop, one
list entry per decision-interval sleep: if the new target is strictly below
the current level, the code sleeps one extra full interval *before* writing
(so the old level stays applied for that interval), then writes the target
and sleeps the normal interval; otherwise it writes immediately and sleeps
once. -/
def fan_iter_applied (table : List TempSpeedPair) (cur : Nat) (t : ℚ) : List Nat :=
  let target := fan_target table t
  if target < cur then [cur, target] else [target]

/-- The applied-level sequence of the `fan_check` loop across a sequence of
temperature samples, one entry per decision-interval sleep ("poll"). -/
def fan_applied (table : List TempSpeedPair) (cur : Nat) : List ℚ → List Nat
  | [] => []
  | t :: rest =>
    fan_iter_applied table cur t ++ fan_applied table (fan_target table t) rest

/-- `fan_check` (lines 98-154), given the already-deserialized raw config
(it calls `load_config`, which sorts the step table) and the per-iteration
loop inputs.  Returns the configuration error, or the list of I2C writes:
with `dynamic = false` it writes `const_fan_speed` once (or fails with
`NoConstantSpeed`); with `dynamic = true` it fails with `EmptyStepConfig`
on an absent or empty step table, and otherwise runs the control loop
starting from `curret_fan_speed = 0`. -/
def fan_check (raw : FanConfig) (inputs : List FanPoll) :
    Except ConfigError (List I2CWrite) :=
  let config := load_config raw
  match config.dynamic with
  | false =>
    match config.const_fan_speed with
    | some speed => .ok [⟨0, speed⟩]
    | none => .error .NoConstantSpeed
  | true =>
    match config.step with
    | none => .error .EmptyStepConfig
    | some step_config =>
      if step_config.length = 0 then .error .EmptyStepConfig
      else .ok (fan_loop step_config 0 inputs)

/-! ### Helper lemmas -/

theorem fan_target_eq_find (table : List TempSpeedPair) (t : ℚ) :
    fan_target table t = fan_target_spec table t := by
  induction table with
  | nil => rfl
  | cons p rest ih =>
    by_cases h : t < (p.temperature : ℚ) <;>
      simp [fan_target, fan_target_spec, List.find?, h] <;>
      simpa [fan_target_spec] using ih

theorem pulse_count_eq_mod (n : Nat) : pulse_count n = n % 256 := by
  induction n with
  | zero => rfl
  | succ n ih =>
    unfold pulse_count at *
    rw [Function.iterate_succ_apply', ih, u8_inc]
    omega

/-! ### Claims -/

/-- C1: for every step table sorted ascending by threshold and every sampled
temperature, the target fan level computed by the `fan_check` scan equals the
fan level of the first entry whose threshold strictly exceeds the sample
(`fan_target_spec` uses exactly that strict-`<` first-match description), and
0 when no entry's threshold exceeds the sample; a sample exactly equal to a
threshold fails the strict comparison, so it does not select that entry. -/
theorem fan_target_first_strictly_exceeding (table : List TempSpeedPair)
    (t : ℚ) (hsorted : List.Sorted stepLE table) :
    fan_target table t = fan_target_spec table t :=
  fan_target_eq_find table t

theorem fan_target_first_strictly_exceeding_witness :
    List.Sorted stepLE [⟨50, 20⟩, ⟨70, 60⟩] ∧
      fan_target [⟨50, 20⟩, ⟨70, 60⟩] 50 = fan_target_spec [⟨50, 20⟩, ⟨70, 60⟩] 50 :=
  ⟨by decide, fan_target_first_strictly_exceeding [⟨50, 20⟩, ⟨70, 60⟩] 50 (by decide)⟩

/-- C2: the pulse classification of `shutdown_check`: counter values 0 and 1
issue no action, 2 and 3 issue a reboot, 4 and 5 issue a power-off, and every
value 6 or above issues no action. -/
theorem shutdown_action_bands :
    shutdown_action 0 = none ∧ shutdown_action 1 = none ∧
    shutdown_action 2 = some .reboot ∧ shutdown_action 3 = some .reboot ∧
    shutdown_action 4 = some .poweroff ∧ shutdown_action 5 = some .poweroff ∧
    ∀ c : Nat, 6 ≤ c → shutdown_action c = none := by
  refine ⟨rfl, rfl, rfl, rfl, rfl, rfl, ?_⟩
  intro c hc
  obtain ⟨n, rfl⟩ : ∃ n, c = n + 6 := ⟨c - 6, by omega⟩
  rfl

theorem shutdown_action_bands_witness : shutdown_action 7 = none :=
  shutdown_action_bands.2.2.2.2.2.2 7 (by decide)

/-- C9: `PULSE_TIME` is an `AtomicU8`, so after `n` rising edges it reads
`n % 256`; the classification therefore repeats with period 256, and 258
total edges read as 2, which issues a reboot. -/
theorem pulse_counter_wraps (n : Nat) :
    pulse_count n = n % 256 ∧
    shutdown_action (pulse_count (n + 256)) = shutdown_action (pulse_count n) ∧
    pulse_count 258 = 2 ∧
    shutdown_action (pulse_count 258) = some .reboot := by
  refine ⟨pulse_count_eq_mod n, ?_, ?_, ?_⟩
  · rw [pulse_count_eq_mod, pulse_count_eq_mod]
    congr 1
    omega
  · rw [pulse_count_eq_mod]
  · rw [pulse_count_eq_mod]
    decide

/-- C10: with `dynamic = false`, `fan_check` writes the configured constant
speed to I2C register 0 exactly once and succeeds — for every input sequence,
so no loop iteration runs, no termination signal is consumed, and no final
level-0 write happens — and fails with `NoConstantSpeed` when
`const_fan_speed` is absent. -/
theorem fan_check_const_mode (raw : FanConfig) (inputs : List FanPoll) :
    (∀ s, raw.dynamic = false → raw.const_fan_speed = some s →
      fan_check raw inputs = .ok [⟨0, s⟩]) ∧
    (raw.dynamic = false → raw.const_fan_speed = none →
      fan_check raw inputs = .error .NoConstantSpeed) := by
  constructor
  · intro s hdyn hconst
    simp [fan_check, load_config, hdyn, hconst]
  · intro hdyn hconst
    simp [fan_check, load_config, hdyn, hconst]

theorem fan_check_const_mode_witness :
    fan_check ⟨false, some 25, none, none⟩ [.signal] = .ok [⟨0, 25⟩] ∧
    fan_check ⟨false, none, none, none⟩ [] = .error .NoConstantSpeed :=
  ⟨(fan_check_const_mode ⟨false, some 25, none, none⟩ [.signal]).1 25 rfl rfl,
    (fan_check_const_mode ⟨false, none, none, none⟩ []).2 rfl rfl⟩

/-- C4 counterexample: a configuration whose step table is absent does *not*
produce `EmptyStepConfig` when `dynamic = false` and a constant speed is
given — `fan_check` succeeds and writes the constant speed. -/
theorem empty_step_counterexample :
    fan_check ⟨false, some 50, none, none⟩ [] = .ok [⟨0, 50⟩] ∧
    fan_check ⟨false, some 50, none, none⟩ [] ≠ .error .EmptyStepConfig := by
  refine ⟨rfl, ?_⟩
  intro h
  exact Except.noConfusion ((rfl :
    fan_check ⟨false, some 50, none, none⟩ [] = Except.ok [I2CWrite.mk 0 50]) ▸ h)

/-- C4 amended: when dynamic fan control is enabled, a configuration whose
step table is absent or empty makes `fan_check` fail with the
`EmptyStepConfig` configuration error before any control-loop iteration runs
(no I2C write is performed, whatever the loop inputs would have been). -/
theorem empty_step_rejected (raw : FanConfig) (inputs : List FanPoll)
    (hdyn : raw.dynamic = true)
    (hstep : raw.step = none ∨ raw.step = some []) :
    fan_check raw inputs = .error .EmptyStepConfig := by
  rcases hstep with h | h <;>
    simp [fan_check, load_config, hdyn, h, List.insertionSort]

theorem empty_step_rejected_witness :
    fan_check ⟨true, none, some [], none⟩ [.temp 42] = .error .EmptyStepConfig :=
  empty_step_rejected ⟨true, none, some [], none⟩ [.temp 42] rfl (Or.inr rfl)

theorem fan_loop_signal_exit (table : List TempSpeedPair) (pre : List FanPoll) :
    ∀ (cur : Nat) (rest : List FanPoll), (∀ x ∈ pre, x ≠ FanPoll.signal) →
      fan_loop table cur (pre ++ FanPoll.signal :: rest) =
        fan_loop table cur pre ++ [⟨0, 0⟩] := by
  induction pre with
  | nil =>
    intro cur rest _
    simp [fan_loop]
  | cons x xs ih =>
    intro cur rest h
    cases x with
    | signal => exact absurd rfl (h FanPoll.signal (List.mem_cons_self _ _))
    | temp t =>
      simp only [List.cons_append, fan_loop, List.append_eq]
      rw [ih _ rest fun y hy => h y (List.mem_cons_of_mem _ hy)]

theorem shutdown_loop_signal_exit (spre : List ShutdownPoll) :
    ∀ (c : Nat) (srest : List ShutdownPoll), (∀ x ∈ spre, x.signalPending = false) →
      shutdown_loop (spre ++ ⟨true, c⟩ :: srest) = shutdown_loop spre := by
  induction spre with
  | nil =>
    intro c srest _
    simp [shutdown_loop]
  | cons x xs ih =>
    intro c srest h
    have hx : x.signalPending = false := h x (List.mem_cons_self _ _)
    simp only [List.cons_append, shutdown_loop, hx]
    cases ha : shutdown_action x.counter <;>
      simp [ha, ih c srest fun y hy => h y (List.mem_cons_of_mem _ hy)]

/-- C3 counterexample: for the table `[(40,10),(60,40),(80,80)]`, start level
0 and samples `[35, 65, 45]`, the applied-level sequence across 4 polls is
`[10, 80, 80, 40]`, not `[10, 40, 40, 10]` as the claim states: the sample 65
selects the first threshold strictly above it, which is 80 (level 80), not
60, and the sample 45 then selects threshold 60 (level 40). -/
theorem hysteresis_example_counterexample :
    fan_applied [⟨40, 10⟩, ⟨60, 40⟩, ⟨80, 80⟩] 0 [35, 65, 45] = [10, 80, 80, 40] ∧
    fan_applied [⟨40, 10⟩, ⟨60, 40⟩, ⟨80, 80⟩] 0 [35, 65, 45] ≠ [10, 40, 40, 10] := by
  decide

/-- C3 amended: on each iteration with current level `L` and computed target
`L'`, if `L' < L` the applied level stays `L` for one extra full decision
interval before the write of `L'` (two interval-long applied levels
`[L, L']`), and if `L' ≥ L` the write happens on the same interval (`[L']`);
for table `[(40,10),(60,40),(80,80)]`, start level 0 and samples
`[35, 65, 45]`, the applied sequence across 4 polls is `[10, 80, 80, 40]`. -/
theorem hysteresis_delayed_drop (table : List TempSpeedPair) (cur : Nat) (t : ℚ) :
    (fan_target table t < cur →
      fan_iter_applied table cur t = [cur, fan_target table t]) ∧
    (cur ≤ fan_target table t →
      fan_iter_applied table cur t = [fan_target table t]) ∧
    fan_applied [⟨40, 10⟩, ⟨60, 40⟩, ⟨80, 80⟩] 0 [35, 65, 45] = [10, 80, 80, 40] := by
  refine ⟨?_, ?_, ?_⟩
  · intro h
    simp [fan_iter_applied, h]
  · intro h
    simp [fan_iter_applied, Nat.not_lt.mpr h]
  · decide

theorem hysteresis_delayed_drop_witness :
    fan_iter_applied [⟨40, 10⟩, ⟨60, 40⟩, ⟨80, 80⟩] 80 45 = [80, 40] :=
  (hysteresis_delayed_drop [⟨40, 10⟩, ⟨60, 40⟩, ⟨80, 80⟩] 80 45).1 (by decide)

/-- C5: if the termination signal is pending at the top of a `fan_check`
iteration, the loop writes exactly one more byte — level 0 to I2C register
0 — and exits, performing nothing for any later inputs; likewise
`shutdown_check` spawns nothing further and exits on the iteration that
observes the signal.  Both loops therefore exit within one polling interval
of the signal being set. -/
theorem termination_signal_exit (table : List TempSpeedPair) (cur : Nat)
    (pre rest : List FanPoll) (hpre : ∀ x ∈ pre, x ≠ FanPoll.signal)
    (spre srest : List ShutdownPoll) (c : Nat)
    (hspre : ∀ x ∈ spre, x.signalPending = false) :
    fan_loop table cur (pre ++ FanPoll.signal :: rest) =
      fan_loop table cur pre ++ [⟨0, 0⟩] ∧
    shutdown_loop (spre ++ ⟨true, c⟩ :: srest) = shutdown_loop spre :=
  ⟨fan_loop_signal_exit table pre cur rest hpre,
    shutdown_loop_signal_exit spre c srest hspre⟩

theorem termination_signal_exit_witness :
    fan_loop [⟨40, 10⟩] 0 ([.temp 35] ++ FanPoll.signal :: [.temp 99]) =
      fan_loop [⟨40, 10⟩] 0 [.temp 35] ++ [⟨0, 0⟩] ∧
    shutdown_loop ([⟨false, 2⟩] ++ ⟨true, 0⟩ :: []) = shutdown_loop [⟨false, 2⟩] :=
  termination_signal_exit [⟨40, 10⟩] 0 [.temp 35] [.temp 99] (by decide)
    [⟨false, 2⟩] [] 0 (by decide)

/-- C6: the decoder re-fires rather than firing once per burst: while the
counter stays in the same band across polls (here a burst of two pulses,
counter reading 2 on every subsequent poll), `shutdown_check` spawns the
reboot command on every poll — `n` polls spawn `n` reboots. -/
theorem pulse_action_refires (n : Nat) :
    shutdown_loop (List.replicate n ⟨false, 2⟩) = List.replicate n PowerAction.reboot ∧
    shutdown_loop [⟨false, 2⟩, ⟨false, 2⟩] = [.reboot, .reboot] := by
  constructor
  · induction n with
    | zero => rfl
    | succ n ih => simp [List.replicate_succ, shutdown_loop, shutdown_action, ih]
  · rfl

/-- C7: whenever `load_config` yields a step table, that table is sorted
ascending by temperature threshold and is a permutation of the entries of
the input configuration, whatever order they appeared in; the embedding is
purely functional, mirroring that the Rust code never mutates the table
after `load_config` returns. -/
theorem step_table_sorted_after_load (c : FanConfig) (l : List TempSpeedPair)
    (h : (load_config c).step = some l) :
    List.Sorted stepLE l ∧ ∃ raw, c.step = some raw ∧ List.Perm l raw := by
  cases hc : c.step with
  | none =>
    rw [load_config] at h
    simp [hc] at h
  | some raw =>
    rw [load_config] at h
    simp only [hc] at h
    injection h with h
    refine ⟨?_, raw, rfl, ?_⟩
    · rw [← h]
      exact List.sorted_insertionSort stepLE raw
    · rw [← h]
      exact List.perm_insertionSort stepLE raw

theorem step_table_sorted_after_load_witness :
    List.Sorted stepLE [⟨40, 10⟩, ⟨60, 40⟩] ∧
      ∃ raw, (FanConfig.mk true none (some [⟨60, 40⟩, ⟨40, 10⟩]) none).step = some raw ∧
        List.Perm [⟨40, 10⟩, ⟨60, 40⟩] raw :=
  step_table_sorted_after_load (FanConfig.mk true none (some [⟨60, 40⟩, ⟨40, 10⟩]) none)
    [⟨40, 10⟩, ⟨60, 40⟩] (by decide)

/-- Rust `char::is_whitespace`, used by `str::trim_end`: the Unicode
White_Space code points. -/
def isRustWhitespace (c : Char) : Bool :=
  decide ((9 ≤ c.toNat ∧ c.toNat ≤ 13) ∨ c.toNat = 32 ∨ c.toNat = 133 ∨
    c.toNat = 160 ∨ c.toNat = 5760 ∨ (8192 ≤ c.toNat ∧ c.toNat ≤ 8202) ∨
    c.toNat = 8232 ∨ c.toNat = 8233 ∨ c.toNat = 8239 ∨ c.toNat = 8287 ∨
    c.toNat = 12288)

/-- Rust `str::trim_start_matches(pat)`: repeatedly remove `pat` from the
front of the string while it is a prefix. -/
def trimStartMatches (pat s : List Char) : List Char :=
  if h : pat ≠ [] ∧ pat <+: s then trimStartMatches pat (s.drop pat.length)
  else s
termination_by s.length
decreasing_by
  have h1 : pat.length ≤ s.length := h.2.length_le
  have h2 : 0 < pat.length := List.length_pos.mpr h.1
  simp only [List.length_drop]
  omega

/-- Rust `str::trim_end`: remove trailing whitespace. -/
def trimEnd (s : List Char) : List Char :=
  (s.reverse.dropWhile isRustWhitespace).reverse

/-- Rust `str::trim_end_matches(pat)`: repeatedly remove `pat` from the end
of the string while it is a suffix. -/
def trimEndMatches (pat s : List Char) : List Char :=
  (trimStartMatches pat.reverse s.reverse).reverse

/-- The characters of the pattern `"temp="` stripped by `read_temperature`. -/
def tempPat : List Char := ['t', 'e', 'm', 'p', '=']

/-- The characters of the pattern `"\'C"` (apostrophe, then `C`) stripped
from the end by `read_temperature`. -/
def quoteC : List Char := [Char.ofNat 39, 'C']

/-- The string pipeline of `read_temperature` (lines 87-96) on the external
command's stdout: `trim_start_matches("temp=")`, then `trim_end()`, then
`trim_end_matches("\'C")`. -/
def read_temperature_str (out : List Char) : List Char :=
  trimEndMatches quoteC (trimEnd (trimStartMatches tempPat out))

/-- Value of a run of ASCII digits, most significant first. -/
def digitsVal (s : List Char) : Nat :=
  s.foldl (fun a c => a * 10 + (c.toNat - 48)) 0

/-- Modelled from the spec: the external `str::parse::<f32>` collaborator is
described as "parse as a decimal number"; embedded as exact rational parsing
of plain decimal literals `digits [. digits]` (empty integer or fractional
part allowed, but not both). -/
def parseUnsigned (s : List Char) : Option ℚ :=
  let ip := s.takeWhile (fun c => c ≠ '.')
  let fr := s.dropWhile (fun c => c ≠ '.')
  match fr with
  | [] => if ip ≠ [] ∧ ip.all Char.isDigit then some (digitsVal ip) else none
  | _ :: fp =>
    if (ip ≠ [] ∨ fp ≠ []) ∧ ip.all Char.isDigit ∧ fp.all Char.isDigit then
      some ((digitsVal ip : ℚ) + (digitsVal fp : ℚ) / (10 : ℚ) ^ fp.length)
    else none

/-- Modelled from the spec: optional leading sign in front of the unsigned
decimal literal. -/
def parseDecimal (s : List Char) : Option ℚ :=
  match s with
  | '-' :: rest => (parseUnsigned rest).map fun q => -q
  | '+' :: rest => parseUnsigned rest
  | _ => parseUnsigned s

/-- `read_temperature` (lines 87-96): strip pipeline, then decimal parse;
`none` models the `?`-propagated parse error. -/
def read_temperature (out : List Char) : Option ℚ :=
  parseDecimal (read_temperature_str out)

theorem trimStartMatches_stop (pat s : List Char) (h : ¬ pat <+: s) :
    trimStartMatches pat s = s := by
  rw [trimStartMatches]
  exact dif_neg fun hc => h hc.2

theorem trimStartMatches_append (pat s : List Char) (hne : pat ≠ [])
    (h : ¬ pat <+: s) : trimStartMatches pat (pat ++ s) = s := by
  rw [trimStartMatches, dif_pos ⟨hne, List.prefix_append pat s⟩, List.drop_left]
  exact trimStartMatches_stop pat s h

theorem dropWhile_append_all {α : Type} (p : α → Bool) :
    ∀ (l₁ l₂ : List α), (∀ c ∈ l₁, p c = true) →
      List.dropWhile p (l₁ ++ l₂) = List.dropWhile p l₂
  | [], _, _ => rfl
  | a :: l₁, l₂, h => by
    have ha : p a = true := h a (List.mem_cons_self _ _)
    rw [List.cons_append, List.dropWhile_cons, if_pos ha]
    exact dropWhile_append_all p l₁ l₂ fun c hc => h c (List.mem_cons_of_mem _ hc)

/-- C8: for every command output of the form `temp=<body>'C` followed by
trailing whitespace — `body` itself neither re-introducing a `temp=` prefix
nor ending in `'C` — `read_temperature` strips the `temp=` prefix and the
trailing `'C` suffix and returns the remaining text parsed as a decimal
number. -/
theorem temperature_parse (body ws : List Char)
    (h1 : ¬ tempPat <+: (body ++ quoteC ++ ws))
    (h2 : ¬ quoteC <:+ body)
    (h3 : ∀ c ∈ ws, isRustWhitespace c = true) :
    read_temperature (tempPat ++ (body ++ quoteC ++ ws)) = parseDecimal body := by
  unfold read_temperature read_temperature_str
  rw [trimStartMatches_append _ _ (by decide) h1]
  have hC : isRustWhitespace 'C' = false := by decide
  have hEnd : trimEnd (body ++ quoteC ++ ws) = body ++ quoteC := by
    unfold trimEnd
    rw [List.reverse_append,
      dropWhile_append_all _ ws.reverse _ fun c hc => h3 c (List.mem_reverse.mp hc)]
    have hstop : List.dropWhile isRustWhitespace ((body ++ quoteC).reverse) =
        (body ++ quoteC).reverse := by
      rw [show (body ++ quoteC).reverse =
        'C' :: (Char.ofNat 39 :: body.reverse) from by simp [quoteC]]
      rw [List.dropWhile_cons, if_neg (by simp [hC])]
    rw [hstop, List.reverse_reverse]
  rw [hEnd]
  have hTrim : trimEndMatches quoteC (body ++ quoteC) = body := by
    unfold trimEndMatches
    rw [List.reverse_append,
      trimStartMatches_append quoteC.reverse body.reverse (by decide)
        fun hp => h2 ( List.reverse_prefix.mp hp),
      List.reverse_reverse]
  rw [hTrim]

theorem temperature_parse_witness :
    read_temperature (tempPat ++ (['4', '2', '.', '8'] ++ quoteC ++ ['\n'])) =
      parseDecimal ['4', '2', '.', '8'] ∧
    parseDecimal ['4', '2', '.', '8'] = some (214 / 5) :=
  ⟨temperature_parse ['4', '2', '.', '8'] ['\n'] (by decide) (by decide)
    (by decide), by
      have h : parseDecimal ['4', '2', '.', '8'] =
          some (((42 : Nat) : ℚ) + ((8 : Nat) : ℚ) / (10 : ℚ) ^ (1 : Nat)) := rfl
      rw [h]
      norm_num⟩
